import Mathlib

/-!
Verification of the type-profile demo server core (`typeprofile/demo.js`).

Strings are modelled as `List Char`.  The two core components are embedded:

* the Session Driver (`postAsync`, `CollectProfile`): protocol commands are
  modelled by an `Oracle` giving the remote response of every command in the
  fixed protocol sequence; `CollectProfile` returns the ordered trace of
  session operations it performed (connect / post / disconnect) together with
  its result, an `Except` value (promise resolution or rejection);
* the Annotator (`Escape`, `MarkUpCode` with its helpers `CopySourceUpTo`
  and `PrintType`), embedded as pure functions on `List Char`.
-/

/-! ## JavaScript string primitives -/

/-- Global regex replacement `string.replace(new RegExp(pattern, "g"), replacement)`
for a literal pattern (none of the patterns used by `Escape` contains a regex
metacharacter): scan left to right; at each position, if the pattern matches,
emit the replacement and continue after the matched text (the replacement is
not rescanned); otherwise keep the character.  An empty pattern is a no-op
guard (never used by the program). -/
def replaceAll (pat repl : List Char) : List Char → List Char
| [] => []
| c :: rest =>
  if pat ≠ [] ∧ pat.isPrefixOf (c :: rest)
  then repl ++ replaceAll pat repl ((c :: rest).drop pat.length)
  else c :: replaceAll pat repl rest
termination_by s => s.length
decreasing_by
  · simp only [List.length_drop, List.length_cons]
    have hp : 1 ≤ pat.length := by
      rcases pat with _ | ⟨a, as⟩
      · simp at *
      · simp
    omega
  · simp

/-- JavaScript `String.prototype.substring(a, b)`: each index is clamped to
`[0, length]`, and if the start exceeds the end the two are swapped. -/
def jsSubstring (s : List Char) (a b : Nat) : List Char :=
  ((s.drop (min (min a s.length) (min b s.length))).take
    (max (min a s.length) (min b s.length) - min (min a s.length) (min b s.length)))

/-! ## Escape (demo.js lines 38-51) -/

/-- Ordered list of (pattern, replacement) pairs of `Escape`, exactly as in
the source array literal. -/
def escapePairs : List (List Char × List Char) :=
  [ ("&".data, "&amp;".data),
    (" ".data, "&nbsp;".data),
    ("<".data, "&lt;".data),
    (">".data, "&gt;".data),
    ("\r\n".data, "<br/>".data),
    ("\n".data, "<br/>".data),
    ("\"".data, "&quot;".data) ]

/-- Reformat string for HTML: `reduce` of global replacement over
`escapePairs`, seeded with the input string (demo.js lines 38-51). -/
def Escape (s : List Char) : List Char :=
  escapePairs.foldl (fun str pr => replaceAll pr.1 pr.2 str) s

/-! ## Session driver (demo.js lines 7-22 and 53-88) -/

/-- Rejection reasons of `postAsync` and `CollectProfile`: a remote command
error, the exception description carried in a result (script threw or failed
to compile), or a local transport fault thrown by `connect`. -/
inductive Reason where
| remoteError (e : String)
| scriptException (d : String)
| transport (e : String)
deriving DecidableEq, Repr

/-- Raw protocol response delivered to the `post` callback: the `error`
argument (`null` modelled as `none`) and the optional
`exceptionDetails.exception.description` field of the result. -/
structure RawResponse where
  error : Option String := none
  exceptionDetails : Option String := none
deriving DecidableEq, Repr

/-- Settling of the promise returned by `postAsync` (demo.js lines 7-22):
reject with the error if one is reported, otherwise reject with the
exception description if the result carries one, otherwise resolve. -/
def postAsyncResult (r : RawResponse) : Except Reason Unit :=
  match r.error with
  | some e => Except.error (Reason.remoteError e)
  | none =>
    match r.exceptionDetails with
    | some d => Except.error (Reason.scriptException d)
    | none => Except.ok ()

/-- A runtime type observed at a sample point (`type.name`). -/
structure TypeInfo where
  name : List Char
deriving DecidableEq, Repr

/-- A type sample: an offset into the source plus the types observed there. -/
structure TypeSample where
  offset : Nat
  types : List TypeInfo
deriving DecidableEq, Repr

/-- A batch of samples tied to one compiled script (`scriptId`). -/
structure ProfileEntry where
  scriptId : Nat
  entries : List TypeSample
deriving DecidableEq, Repr

/-- A console notification recorded by the `Runtime.consoleAPICalled`
listener. -/
structure LogMessage where
  level : String
  value : String
deriving DecidableEq, Repr

/-- Remote behaviour of one run: the outcome of `connect` and of each
protocol command of the fixed sequence, the payloads of the two commands
whose results are read (`Runtime.compileScript` yields `scriptId`,
`Profiler.takeTypeProfile` yields `result`), and the console notifications
delivered during execution. -/
structure Oracle where
  connectFault : Option String := none
  runtimeEnable : RawResponse := {}
  profilerEnable : RawResponse := {}
  startTypeProfile : RawResponse := {}
  compileScript : RawResponse := {}
  compiledScriptId : Nat := 0
  runScript : RawResponse := {}
  collectGarbage : RawResponse := {}
  takeTypeProfile : RawResponse := {}
  takeResult : List ProfileEntry := []
  stopTypeProfile : RawResponse := {}
  profilerDisable : RawResponse := {}
  runtimeDisable : RawResponse := {}
  consoleEvents : List LogMessage := []
deriving DecidableEq, Repr

/-- Observable operations on the inspector session handle. -/
inductive SessionOp where
| connect
| post (cmd : String)
| disconnect
deriving DecidableEq, Repr

/-- Body of the `try` block of `CollectProfile` (demo.js lines 58-82):
connect, then the awaited command sequence, each step short-circuiting on
rejection.  Returns the trace of session operations performed together with
the promise outcome.  On success the value is the harvested profile filtered
to this session's `scriptId`, paired with the recorded console messages. -/
def runBody (o : Oracle) (source : List Char) :
    List SessionOp × Except Reason (List ProfileEntry × List LogMessage) :=
  match o.connectFault with
  | some e => ([SessionOp.connect], Except.error (Reason.transport e))
  | none =>
  match postAsyncResult o.runtimeEnable with
  | Except.error r =>
      ([SessionOp.connect, SessionOp.post "Runtime.enable"], Except.error r)
  | Except.ok _ =>
  match postAsyncResult o.profilerEnable with
  | Except.error r =>
      ([SessionOp.connect, SessionOp.post "Runtime.enable",
        SessionOp.post "Profiler.enable"], Except.error r)
  | Except.ok _ =>
  match postAsyncResult o.startTypeProfile with
  | Except.error r =>
      ([SessionOp.connect, SessionOp.post "Runtime.enable",
        SessionOp.post "Profiler.enable", SessionOp.post "Profiler.startTypeProfile"],
       Except.error r)
  | Except.ok _ =>
  match postAsyncResult o.compileScript with
  | Except.error r =>
      ([SessionOp.connect, SessionOp.post "Runtime.enable",
        SessionOp.post "Profiler.enable", SessionOp.post "Profiler.startTypeProfile",
        SessionOp.post "Runtime.compileScript"], Except.error r)
  | Except.ok _ =>
  match postAsyncResult o.runScript with
  | Except.error r =>
      ([SessionOp.connect, SessionOp.post "Runtime.enable",
        SessionOp.post "Profiler.enable", SessionOp.post "Profiler.startTypeProfile",
        SessionOp.post "Runtime.compileScript", SessionOp.post "Runtime.runScript"],
       Except.error r)
  | Except.ok _ =>
  match postAsyncResult o.collectGarbage with
  | Except.error r =>
      ([SessionOp.connect, SessionOp.post "Runtime.enable",
        SessionOp.post "Profiler.enable", SessionOp.post "Profiler.startTypeProfile",
        SessionOp.post "Runtime.compileScript", SessionOp.post "Runtime.runScript",
        SessionOp.post "HeapProfiler.collectGarbage"], Except.error r)
  | Except.ok _ =>
  match postAsyncResult o.takeTypeProfile with
  | Except.error r =>
      ([SessionOp.connect, SessionOp.post "Runtime.enable",
        SessionOp.post "Profiler.enable", SessionOp.post "Profiler.startTypeProfile",
        SessionOp.post "Runtime.compileScript", SessionOp.post "Runtime.runScript",
        SessionOp.post "HeapProfiler.collectGarbage", SessionOp.post "Profiler.takeTypeProfile"],
       Except.error r)
  | Except.ok _ =>
  match postAsyncResult o.stopTypeProfile with
  | Except.error r =>
      ([SessionOp.connect, SessionOp.post "Runtime.enable",
        SessionOp.post "Profiler.enable", SessionOp.post "Profiler.startTypeProfile",
        SessionOp.post "Runtime.compileScript", SessionOp.post "Runtime.runScript",
        SessionOp.post "HeapProfiler.collectGarbage", SessionOp.post "Profiler.takeTypeProfile",
        SessionOp.post "Profiler.stopTypeProfile"], Except.error r)
  | Except.ok _ =>
  match postAsyncResult o.profilerDisable with
  | Except.error r =>
      ([SessionOp.connect, SessionOp.post "Runtime.enable",
        SessionOp.post "Profiler.enable", SessionOp.post "Profiler.startTypeProfile",
        SessionOp.post "Runtime.compileScript", SessionOp.post "Runtime.runScript",
        SessionOp.post "HeapProfiler.collectGarbage", SessionOp.post "Profiler.takeTypeProfile",
        SessionOp.post "Profiler.stopTypeProfile", SessionOp.post "Profiler.disable"],
       Except.error r)
  | Except.ok _ =>
  match postAsyncResult o.runtimeDisable with
  | Except.error r =>
      ([SessionOp.connect, SessionOp.post "Runtime.enable",
        SessionOp.post "Profiler.enable", SessionOp.post "Profiler.startTypeProfile",
        SessionOp.post "Runtime.compileScript", SessionOp.post "Runtime.runScript",
        SessionOp.post "HeapProfiler.collectGarbage", SessionOp.post "Profiler.takeTypeProfile",
        SessionOp.post "Profiler.stopTypeProfile", SessionOp.post "Profiler.disable",
        SessionOp.post "Runtime.disable"], Except.error r)
  | Except.ok _ =>
      ([SessionOp.connect, SessionOp.post "Runtime.enable",
        SessionOp.post "Profiler.enable", SessionOp.post "Profiler.startTypeProfile",
        SessionOp.post "Runtime.compileScript", SessionOp.post "Runtime.runScript",
        SessionOp.post "HeapProfiler.collectGarbage", SessionOp.post "Profiler.takeTypeProfile",
        SessionOp.post "Profiler.stopTypeProfile", SessionOp.post "Profiler.disable",
        SessionOp.post "Runtime.disable"],
       Except.ok (o.takeResult.filter (fun x => x.scriptId == o.compiledScriptId),
                  o.consoleEvents))

/-- `CollectProfile` (demo.js lines 53-88): run the `try` body, then — as the
`finally` block — disconnect the session, whatever the body's outcome. -/
def CollectProfile (o : Oracle) (source : List Char) :
    List SessionOp × Except Reason (List ProfileEntry × List LogMessage) :=
  match runBody o source with
  | (trace, res) => (trace ++ [SessionOp.disconnect], res)

/-! ## Spec-side descriptions of the driver's failure semantics -/

/-- Outcome of each step of the protocol sequence, in protocol order (the
spec's steps: connect, the eight enabling/run/harvest commands, the three
disabling commands). -/
def stepResponses (o : Oracle) : List (Except Reason Unit) :=
  [ (match o.connectFault with
     | some e => Except.error (Reason.transport e)
     | none => Except.ok ()),
    postAsyncResult o.runtimeEnable,
    postAsyncResult o.profilerEnable,
    postAsyncResult o.startTypeProfile,
    postAsyncResult o.compileScript,
    postAsyncResult o.runScript,
    postAsyncResult o.collectGarbage,
    postAsyncResult o.takeTypeProfile,
    postAsyncResult o.stopTypeProfile,
    postAsyncResult o.profilerDisable,
    postAsyncResult o.runtimeDisable ]

/-- The session operation performed at each step, in protocol order. -/
def sessionOps : List SessionOp :=
  [ SessionOp.connect, SessionOp.post "Runtime.enable",
    SessionOp.post "Profiler.enable", SessionOp.post "Profiler.startTypeProfile",
    SessionOp.post "Runtime.compileScript", SessionOp.post "Runtime.runScript",
    SessionOp.post "HeapProfiler.collectGarbage", SessionOp.post "Profiler.takeTypeProfile",
    SessionOp.post "Profiler.stopTypeProfile", SessionOp.post "Profiler.disable",
    SessionOp.post "Runtime.disable" ]

/-- Rejection reason of a step outcome, if any. -/
def errOf : Except Reason Unit → Option Reason
| Except.error r => some r
| Except.ok _ => none

/-- Reason of the first faulty step of the protocol sequence, if any
(spec: the first command that reports a remote error or whose result
carries an exception description aborts the sequence with that reason). -/
def firstFault (o : Oracle) : Option Reason :=
  (stepResponses o).findSome? errOf

/-- Index of the first faulty step of the protocol sequence, if any. -/
def faultIndex (o : Oracle) : Option Nat :=
  (stepResponses o).findIdx? (fun r => (errOf r).isSome)

/-- Trace the spec prescribes: the protocol operations up to and including
the first faulty one (all of them when every step is clean), followed by the
unconditional disconnect. -/
def expectedTrace (o : Oracle) : List SessionOp :=
  (match faultIndex o with
   | some i => sessionOps.take (i + 1)
   | none => sessionOps) ++ [SessionOp.disconnect]

/-! ## Annotator (demo.js lines 90-122) -/

/-- `PrintType` (demo.js lines 105-111): the marker emitted for one observed
type — the fixed span-opening text, `">"`, the type name verbatim, the
closing tag, and a single space, appended in that order. -/
def PrintType (t : TypeInfo) : List Char :=
  "<span style=\"background-color: rgb(255, 0, 0); color: white\"".data
    ++ ">".data ++ t.name ++ "</span>".data ++ " ".data

/-- Flattening of the profile into a single sample sequence
(demo.js lines 91-92: `reduce` of `concat` over the entry lists). -/
def flattenEntries (profile : List ProfileEntry) : List TypeSample :=
  profile.foldl (fun result next => result ++ next.entries) []

/-- Insertion into a list sorted by offset, before the first element of
offset not smaller: the placement a stable ascending sort gives. -/
def insertByOffset (e : TypeSample) : List TypeSample → List TypeSample
| [] => [e]
| x :: xs =>
  if e.offset ≤ x.offset then e :: x :: xs else x :: insertByOffset e xs

/-- The stable ascending sort by `offset` performed by
`entries.sort((a, b) => a.offset - b.offset)` (demo.js lines 93-95; the
comparator is a consistent numeric comparison, and `Array.prototype.sort`
is stable, so the result is the unique stable ascending reordering). -/
def sortByOffset : List TypeSample → List TypeSample
| [] => []
| e :: es => insertByOffset e (sortByOffset es)

/-- The walk of demo.js lines 113-120: for each sample, `CopySourceUpTo`
its offset (append the escaped source text between the cursor and the
offset, and move the cursor there), then `PrintType` each of its types;
after the last sample, `CopySourceUpTo(source.length)`. -/
def annotateWalk (source : List Char) : Nat → List TypeSample → List Char
| cursor, [] => Escape (jsSubstring source cursor source.length)
| cursor, e :: rest =>
  Escape (jsSubstring source cursor e.offset)
    ++ e.types.flatMap PrintType
    ++ annotateWalk source e.offset rest

/-- `MarkUpCode` (demo.js lines 90-122): flatten, sort by offset, then walk
the source with an advancing cursor. -/
def MarkUpCode (profile : List ProfileEntry) (source : List Char) : List Char :=
  annotateWalk source 0 (sortByOffset (flattenEntries profile))

/-- The successive raw (pre-escape) source pieces passed to
`CopySourceUpTo` during the walk, in order: the projection of
`annotateWalk` onto the `source.substring(cursor, up_to)` arguments. -/
def copiedChunks (source : List Char) : Nat → List TypeSample → List (List Char)
| cursor, [] => [jsSubstring source cursor source.length]
| cursor, e :: rest =>
  jsSubstring source cursor e.offset :: copiedChunks source e.offset rest

/-- The successive values of the walk's `cursor` variable, starting at 0 and
ending with the final `CopySourceUpTo(source.length)`. -/
def cursorTrace (source : List Char) : Nat → List TypeSample → List Nat
| cursor, [] => [cursor, source.length]
| cursor, e :: rest => cursor :: cursorTrace source e.offset rest

/-! ## Character-level description of Escape, used by the proofs -/

/-- Replacement block of a single character under the six character-level
substitutions of `Escape` (all but the CR+LF one). -/
def blockOf (c : Char) : List Char :=
  if c = '&' then "&amp;".data
  else if c = ' ' then "&nbsp;".data
  else if c = '<' then "&lt;".data
  else if c = '>' then "&gt;".data
  else if c = '\n' then "<br/>".data
  else if c = '"' then "&quot;".data
  else [c]

/-- Single left-to-right pass equivalent to the whole `Escape` pipeline:
a CR+LF pair becomes one line break, every other character becomes its
replacement block. -/
def escOne : List Char → List Char
| [] => []
| '\r' :: '\n' :: rest => "<br/>".data ++ escOne rest
| c :: rest => blockOf c ++ escOne rest

/-- Character-level substitution of a single-character pattern. -/
def subChar (a : Char) (r : List Char) (c : Char) : List Char :=
  if c = a then r else [c]

/-- Combined effect on one character of the first four passes of `Escape`
(`&`, space, `<`, `>`). -/
def preEsc (c : Char) : List Char :=
  if c = '&' then "&amp;".data
  else if c = ' ' then "&nbsp;".data
  else if c = '<' then "&lt;".data
  else if c = '>' then "&gt;".data
  else [c]

/-- State of the string after the first five passes of `Escape` (the four
character substitutions and the CR+LF pass), described as one pass over the
original string. -/
def midEsc : List Char → List Char
| [] => []
| '\r' :: '\n' :: rest => "<br/>".data ++ midEsc rest
| c :: rest => preEsc c ++ midEsc rest

/-- Decision of whether the two-character sequence CR+LF occurs in a string. -/
def hasCRLF : List Char → Bool
| '\r' :: '\n' :: _ => true
| _ :: rest => hasCRLF rest
| [] => false

/-- Decision of whether `pat` occurs as a contiguous substring of `s`. -/
def containsSub (pat : List Char) : List Char → Bool
| [] => pat.isEmpty
| c :: rest => pat.isPrefixOf (c :: rest) || containsSub pat rest

/-- A string is safe for escaping when none of the replacement outputs of
`Escape` (the literal marker HTML) already occurs in it. -/
def escapeSafe (s : List Char) : Bool :=
  !(containsSub "&amp;".data s) && !(containsSub "&nbsp;".data s)
    && !(containsSub "&lt;".data s) && !(containsSub "&gt;".data s)
    && !(containsSub "<br/>".data s) && !(containsSub "&quot;".data s)

/-! ## Spec-side description of the Escape substitution order (claim C4) -/

/-- Escaping as the spec words it: replace, in this order, literal `&`,
then space, `<`, `>`, the two-character sequence CR+LF, a bare LF, and `"`,
each globally. -/
def EscapeSpec (s : List Char) : List Char :=
  replaceAll "\"".data "&quot;".data
    (replaceAll "\n".data "<br/>".data
      (replaceAll "\r\n".data "<br/>".data
        (replaceAll ">".data "&gt;".data
          (replaceAll "<".data "&lt;".data
            (replaceAll " ".data "&nbsp;".data
              (replaceAll "&".data "&amp;".data s))))))


/-! ## Lemmas: the Escape pipeline as a single pass -/

theorem replaceAll_single (a : Char) (r : List Char) :
    ∀ s : List Char, replaceAll [a] r s = s.flatMap (subChar a r) := by
  intro s
  induction s with
  | nil => simp [replaceAll]
  | cons c rest ih =>
    by_cases h : a = c
    · subst h
      rw [replaceAll]
      simp [List.isPrefixOf, subChar, ih]
    · rw [replaceAll]
      simp [List.isPrefixOf, Ne.symm h, subChar, h, ih]

theorem preEsc_ne_nil (c : Char) : preEsc c ≠ [] := by
  simp only [preEsc]
  split_ifs <;> simp

theorem flatMap_preEsc_head (d : Char) (r : List Char) (hd : d ≠ '\n') :
    ∀ T, (d :: r).flatMap preEsc ≠ '\n' :: T := by
  intro T h
  rw [List.flatMap_cons] at h
  rcases hpe : preEsc d with _ | ⟨x, xs⟩
  · exact preEsc_ne_nil d hpe
  · rw [hpe] at h
    simp only [List.cons_append, List.cons.injEq] at h
    have hx : x = '\n' := h.1
    revert hpe
    simp only [preEsc]
    split_ifs <;> intro hpe <;> simp at hpe <;> simp_all

theorem preEsc_no_cr (c : Char) (hc : c ≠ '\r') : ∀ x ∈ preEsc c, x ≠ '\r' := by
  simp only [preEsc]
  split_ifs <;> first
  | decide
  | (intro x hx; simp only [List.mem_singleton] at hx; subst hx; exact hc)

theorem preEsc_cr : preEsc '\r' = ['\r'] := by decide

theorem preEsc_lf : preEsc '\n' = ['\n'] := by decide

theorem replaceAll_crlf_hop (r : List Char) (p : List Char) (hp : ∀ x ∈ p, x ≠ '\r') :
    ∀ T : List Char, replaceAll ['\r', '\n'] r (p ++ T) = p ++ replaceAll ['\r', '\n'] r T := by
  induction p with
  | nil => simp
  | cons c cs ih =>
    intro T
    have hc : c ≠ '\r' := hp c (by simp)
    rw [List.cons_append, replaceAll]
    have hnp : ¬ (['\r', '\n'] ≠ [] ∧ ['\r', '\n'].isPrefixOf (c :: (cs ++ T))) := by
      simp only [ne_eq, List.isPrefixOf_iff_prefix, not_and, List.cons_prefix_cons]
      intro _ h
      exact absurd h.symm hc
    rw [if_neg hnp]
    rw [ih (fun x hx => hp x (by simp [hx])) T]
    simp

theorem replaceAll_crlf_cons (r T : List Char) :
    replaceAll ['\r', '\n'] r ('\r' :: '\n' :: T) = r ++ replaceAll ['\r', '\n'] r T := by
  rw [replaceAll, if_pos]
  · simp
  · exact ⟨by simp, by simp [ List.isPrefixOf_iff_prefix, List.cons_prefix_cons]⟩

theorem replaceAll_crlf_cons_cr (r T : List Char) (hT : ∀ ys, T ≠ '\n' :: ys) :
    replaceAll ['\r', '\n'] r ('\r' :: T) = '\r' :: replaceAll ['\r', '\n'] r T := by
  rw [replaceAll, if_neg]
  rintro ⟨-, hpre⟩
  rw [ List.isPrefixOf_iff_prefix, List.cons_prefix_cons] at hpre
  rcases hpre with ⟨-, t, ht⟩
  exact hT t (by rw [← ht]; rfl)

theorem stageB (s : List Char) :
    replaceAll ['\r', '\n'] "<br/>".data (s.flatMap preEsc) = midEsc s := by
  induction s using midEsc.induct with
  | case1 => simp [replaceAll, midEsc]
  | case2 rest ih =>
    rw [List.flatMap_cons, List.flatMap_cons, preEsc_cr, preEsc_lf, midEsc.eq_2]
    simp only [List.cons_append, List.nil_append]
    rw [replaceAll_crlf_cons, ih]
    simp
  | case3 c rest h ih =>
    rw [midEsc.eq_3 c rest h, List.flatMap_cons]
    by_cases hc : c = '\r'
    · subst hc
      rw [preEsc_cr]
      simp only [List.cons_append, List.nil_append]
      rw [replaceAll_crlf_cons_cr, ih]
      rcases rest with _ | ⟨d, r⟩
      · simp
      · have hd : d ≠ '\n' := fun hdeq => h r rfl (by rw [hdeq])
        exact fun ys => flatMap_preEsc_head d r hd ys
    · rw [replaceAll_crlf_hop _ (preEsc c) (preEsc_no_cr c hc), ih]

theorem comp_preEsc (c : Char) :
    (((subChar '&' "&amp;".data c).flatMap (subChar ' ' "&nbsp;".data)).flatMap
        (subChar '<' "&lt;".data)).flatMap (subChar '>' "&gt;".data) = preEsc c := by
  by_cases h1 : c = '&'
  · subst h1; decide
  · by_cases h2 : c = ' '
    · subst h2; decide
    · by_cases h3 : c = '<'
      · subst h3; decide
      · by_cases h4 : c = '>'
        · subst h4; decide
        · simp [subChar, preEsc, h1, h2, h3, h4]

theorem stageA (s : List Char) :
    replaceAll ['>'] "&gt;".data (replaceAll ['<'] "&lt;".data
      (replaceAll [' '] "&nbsp;".data (replaceAll ['&'] "&amp;".data s)))
      = s.flatMap preEsc := by
  rw [replaceAll_single, replaceAll_single, replaceAll_single, replaceAll_single]
  induction s with
  | nil => rfl
  | cons c rest ih =>
    simp only [List.flatMap_cons, List.flatMap_append]
    rw [ih, comp_preEsc]

theorem comp_blockOf (c : Char) :
    ((preEsc c).flatMap fun x => (subChar '\n' "<br/>".data x).flatMap (subChar '"' "&quot;".data))
      = blockOf c := by
  by_cases h1 : c = '&'
  · subst h1; decide
  · by_cases h2 : c = ' '
    · subst h2; decide
    · by_cases h3 : c = '<'
      · subst h3; decide
      · by_cases h4 : c = '>'
        · subst h4; decide
        · by_cases h5 : c = '\n'
          · subst h5; decide
          · by_cases h6 : c = '"'
            · subst h6; decide
            · simp [preEsc, subChar, blockOf, h1, h2, h3, h4, h5, h6]

theorem stageC (s : List Char) :
    replaceAll ['"'] "&quot;".data (replaceAll ['\n'] "<br/>".data (midEsc s)) = escOne s := by
  rw [replaceAll_single, replaceAll_single]
  induction s using midEsc.induct with
  | case1 => rfl
  | case2 rest ih =>
    rw [midEsc.eq_2, escOne.eq_2, List.flatMap_append, List.flatMap_append, ih]
    exact congrArg (· ++ escOne rest) (by decide)
  | case3 c rest h ih =>
    rw [midEsc.eq_3 c rest h, escOne.eq_3 c rest h,
        List.flatMap_append, List.flatMap_append, ih, List.flatMap_assoc, comp_blockOf]

theorem Escape_eq_escOne (s : List Char) : Escape s = escOne s := by
  show replaceAll ['"'] "&quot;".data (replaceAll ['\n'] "<br/>".data
    (replaceAll ['\r', '\n'] "<br/>".data (replaceAll ['>'] "&gt;".data
      (replaceAll ['<'] "&lt;".data (replaceAll [' '] "&nbsp;".data
        (replaceAll ['&'] "&amp;".data s)))))) = escOne s
  rw [stageA, stageB, stageC]

theorem blockOf_head_inj (c1 c2 : Char) (A B : List Char)
    (h : blockOf c1 ++ A = blockOf c2 ++ B) : c1 = c2 ∧ A = B := by
  unfold blockOf at h
  split_ifs at h <;> simp_all [eq_comm]

theorem blockOf_ne_nil (c : Char) : blockOf c ≠ [] := by
  unfold blockOf
  split_ifs <;> simp

theorem hasCRLF_tail (c : Char) (rest : List Char) (h : hasCRLF (c :: rest) = false) :
    hasCRLF rest = false := by
  by_cases hc : ∃ x, c = '\r' ∧ rest = '\n' :: x
  · obtain ⟨x, rfl, rfl⟩ := hc
    rw [hasCRLF.eq_1] at h
    cases h
  · rw [hasCRLF.eq_2 c rest (fun x h1 h2 => hc ⟨x, h1, h2⟩)] at h
    exact h

theorem escOne_eq_flatMap (s : List Char) (h : hasCRLF s = false) :
    escOne s = s.flatMap blockOf := by
  induction s using escOne.induct with
  | case1 => rfl
  | case2 rest ih =>
    rw [hasCRLF.eq_1] at h
    cases h
  | case3 c rest hshape ih =>
    rw [escOne.eq_3 c rest hshape, List.flatMap_cons, ih (hasCRLF_tail c rest h)]

theorem flatMap_blockOf_inj (s1 : List Char) :
    ∀ s2 : List Char, s1.flatMap blockOf = s2.flatMap blockOf → s1 = s2 := by
  induction s1 with
  | nil =>
    intro s2 h
    rcases s2 with _ | ⟨c, r⟩
    · rfl
    · rw [List.flatMap_nil, List.flatMap_cons] at h
      rcases hb : blockOf c with _ | _
      · exact absurd hb (blockOf_ne_nil c)
      · rw [hb] at h; simp at h
  | cons c1 r1 ih =>
    intro s2 h
    rcases s2 with _ | ⟨c2, r2⟩
    · rw [List.flatMap_cons, List.flatMap_nil] at h
      rcases hb : blockOf c1 with _ | _
      · exact absurd hb (blockOf_ne_nil c1)
      · rw [hb] at h; simp at h
    · rw [List.flatMap_cons, List.flatMap_cons] at h
      obtain ⟨hc, hr⟩ := blockOf_head_inj c1 c2 _ _ h
      rw [hc, ih r2 hr]

theorem escOne_cr : escOne ['\r'] = ['\r'] := by decide

theorem escOne_append_length (a b : List Char) :
    (escOne (a ++ b)).length ≤ (escOne a).length + (escOne b).length := by
  induction a using escOne.induct with
  | case1 => simp
  | case2 rest ih =>
    have hsplit : ('\r' :: '\n' :: rest) ++ b = '\r' :: '\n' :: (rest ++ b) := rfl
    rw [hsplit, escOne.eq_2, escOne.eq_2]
    simp only [List.length_append]
    omega
  | case3 c rest hshape ih =>
    have hsplit : (c :: rest) ++ b = c :: (rest ++ b) := rfl
    rw [hsplit]
    by_cases hc : c = '\r'
    · subst hc
      rcases rest with _ | ⟨d, r⟩
      · rcases b with _ | ⟨e, bs⟩
        · simp
        · by_cases he : e = '\n'
          · subst he
            rw [List.nil_append, escOne.eq_2, escOne_cr,
                escOne.eq_3 '\n' bs (by intro x h1 h2; cases h1)]
            simp [blockOf]
          · rw [List.nil_append,
                escOne.eq_3 '\r' (e :: bs) (fun x h1 h2 => he (by injection h2 with h3 h4)),
                escOne_cr]
            simp [blockOf]
            omega
      · have hd : d ≠ '\n' := fun hh => hshape r rfl (by rw [hh])
        rw [escOne.eq_3 '\r' ((d :: r) ++ b)
              (fun x h1 h2 => hd (by rw [List.cons_append] at h2; injection h2 with h3 h4)),
            escOne.eq_3 '\r' (d :: r)
              (fun x h1 h2 => hd (by injection h2 with h3 h4))]
        simp only [List.length_append]
        have := ih
        omega
    · rw [escOne.eq_3 c (rest ++ b) (fun x h1 h2 => hc h1),
          escOne.eq_3 c rest (fun x h1 h2 => hc h1)]
      simp only [List.length_append]
      omega

/-! ## Lemmas: jsSubstring -/

theorem jsSubstring_all (s : List Char) : jsSubstring s 0 s.length = s := by
  unfold jsSubstring
  simp

theorem jsSubstring_glue (s : List Char) (c m : Nat) (hcm : c ≤ m) :
    jsSubstring s c m ++ jsSubstring s m s.length = jsSubstring s c s.length := by
  unfold jsSubstring
  have h1 : min (min c s.length) (min m s.length) = min c s.length := by omega
  have h2 : max (min c s.length) (min m s.length) = min m s.length := by omega
  have h3 : min (min m s.length) (min s.length s.length) = min m s.length := by omega
  have h4 : max (min m s.length) (min s.length s.length) = s.length := by omega
  have h5 : min (min c s.length) (min s.length s.length) = min c s.length := by omega
  have h6 : max (min c s.length) (min s.length s.length) = s.length := by omega
  rw [h1, h2, h3, h4, h5, h6]
  have h7 : s.length - min c s.length
      = (min m s.length - min c s.length) + (s.length - min m s.length) := by omega
  rw [h7, List.take_add, List.drop_drop]
  have h8 : min c s.length + (min m s.length - min c s.length) = min m s.length := by omega
  rw [h8]

/-! ## Lemmas: the stable insertion sort by offset -/

theorem mem_insertByOffset (e x : TypeSample) (l : List TypeSample) :
    x ∈ insertByOffset e l ↔ x = e ∨ x ∈ l := by
  induction l with
  | nil => simp [insertByOffset]
  | cons y ys ih =>
    rw [insertByOffset]
    split_ifs with h <;> simp [List.mem_cons, ih] <;> tauto

theorem pairwise_insertByOffset (e : TypeSample) (l : List TypeSample)
    (h : l.Pairwise (fun a b => a.offset ≤ b.offset)) :
    (insertByOffset e l).Pairwise (fun a b => a.offset ≤ b.offset) := by
  induction l with
  | nil => simp [insertByOffset]
  | cons y ys ih =>
    rw [insertByOffset]
    rw [List.pairwise_cons] at h
    split_ifs with hle
    · rw [List.pairwise_cons]
      constructor
      · intro x hx
        rcases List.mem_cons.mp hx with rfl | hx2
        · exact hle
        · exact le_trans hle (h.1 x hx2)
      · rw [List.pairwise_cons]
        exact h
    · rw [List.pairwise_cons]
      constructor
      · intro x hx
        rcases (mem_insertByOffset e x ys).mp hx with rfl | hx2
        · omega
        · exact h.1 x hx2
      · exact ih h.2

theorem sortByOffset_pairwise (l : List TypeSample) :
    (sortByOffset l).Pairwise (fun a b => a.offset ≤ b.offset) := by
  induction l with
  | nil => simp [sortByOffset]
  | cons e es ih => exact pairwise_insertByOffset e (sortByOffset es) ih

theorem mem_sortByOffset (x : TypeSample) (l : List TypeSample) :
    x ∈ sortByOffset l ↔ x ∈ l := by
  induction l with
  | nil => simp [sortByOffset]
  | cons e es ih =>
    rw [sortByOffset, mem_insertByOffset]
    simp [ih]

theorem filter_insertByOffset (e : TypeSample) (l : List TypeSample) (v : Nat) :
    (insertByOffset e l).filter (fun x => x.offset == v)
      = (if e.offset = v then [e] else []) ++ l.filter (fun x => x.offset == v) := by
  induction l with
  | nil =>
    rw [insertByOffset]
    by_cases he : e.offset = v <;> simp [List.filter_cons, List.filter_nil, he]
  | cons y ys ih =>
    by_cases hle : e.offset ≤ y.offset
    · rw [insertByOffset, if_pos hle]
      by_cases he : e.offset = v <;> simp [List.filter_cons, he]
    · rw [insertByOffset, if_neg hle, List.filter_cons, List.filter_cons, ih]
      by_cases hy : y.offset = v
      · by_cases he : e.offset = v
        · exact absurd (by omega : e.offset ≤ y.offset) hle
        · simp [hy, he]
      · simp [hy]

theorem sortByOffset_filter_stable (l : List TypeSample) (v : Nat) :
    (sortByOffset l).filter (fun x => x.offset == v)
      = l.filter (fun x => x.offset == v) := by
  induction l with
  | nil => simp [sortByOffset]
  | cons e es ih =>
    rw [sortByOffset, filter_insertByOffset, ih, List.filter_cons]
    by_cases he : e.offset = v
    · simp [he]
    · simp [he]

/-! ## Lemmas: the annotator walk -/

theorem annotateWalk_length (src : List Char) (es : List TypeSample) :
    ∀ c : Nat, (∀ e ∈ es, c ≤ e.offset) →
    es.Pairwise (fun a b => a.offset ≤ b.offset) →
    (escOne (jsSubstring src c src.length)).length ≤ (annotateWalk src c es).length := by
  induction es with
  | nil =>
    intro c _ _
    rw [annotateWalk, Escape_eq_escOne]
  | cons e rest ih =>
    intro c hlb hsort
    rw [annotateWalk]
    simp only [List.length_append]
    rw [Escape_eq_escOne]
    have hc : c ≤ e.offset := hlb e (by simp)
    have h2 := ih e.offset (List.pairwise_cons.mp hsort).1 (List.pairwise_cons.mp hsort).2
    have h3 := escOne_append_length (jsSubstring src c e.offset)
      (jsSubstring src e.offset src.length)
    rw [jsSubstring_glue src c e.offset hc] at h3
    omega

theorem copiedChunks_flatten (src : List Char) (es : List TypeSample) :
    ∀ c : Nat, (∀ e ∈ es, c ≤ e.offset) →
    es.Pairwise (fun a b => a.offset ≤ b.offset) →
    (copiedChunks src c es).flatten = jsSubstring src c src.length := by
  induction es with
  | nil =>
    intro c _ _
    rw [copiedChunks]
    simp
  | cons e rest ih =>
    intro c hlb hsort
    rw [copiedChunks, List.flatten_cons,
        ih e.offset (List.pairwise_cons.mp hsort).1 (List.pairwise_cons.mp hsort).2,
        jsSubstring_glue src c e.offset (hlb e (by simp))]

theorem cursorTrace_head (src : List Char) (m : Nat) (es : List TypeSample) :
    ∃ t, cursorTrace src m es = m :: t := by
  cases es <;> exact ⟨_, rfl⟩

theorem cursorTrace_chain (src : List Char) (es : List TypeSample) :
    ∀ c : Nat, (∀ e ∈ es, c ≤ e.offset) →
    es.Pairwise (fun a b => a.offset ≤ b.offset) →
    (∀ e ∈ es, e.offset ≤ src.length) → c ≤ src.length →
    List.Chain' (fun a b => a ≤ b) (cursorTrace src c es) := by
  induction es with
  | nil =>
    intro c _ _ _ hc
    rw [cursorTrace]
    simp [List.chain'_cons]
    exact hc
  | cons e rest ih =>
    intro c hlb hsort hub hc
    rw [cursorTrace]
    obtain ⟨t, ht⟩ := cursorTrace_head src e.offset rest
    rw [ht, List.chain'_cons]
    constructor
    · exact hlb e (by simp)
    · rw [← ht]
      exact ih e.offset (List.pairwise_cons.mp hsort).1 (List.pairwise_cons.mp hsort).2
        (fun x hx => hub x (by simp [hx])) (hub e (by simp))
theorem collectProfile_characterization (o : Oracle) (src : List Char) :
    (CollectProfile o src).1 = expectedTrace o
    ∧ (∀ r, (CollectProfile o src).2 = Except.error r ↔ firstFault o = some r)
    ∧ (∀ p, (CollectProfile o src).2 = Except.ok p →
        p = (o.takeResult.filter (fun x => x.scriptId == o.compiledScriptId),
             o.consoleEvents)) := by
  obtain ⟨cf, ⟨e1, x1⟩, ⟨e2, x2⟩, ⟨e3, x3⟩, ⟨e4, x4⟩, sid, ⟨e5, x5⟩, ⟨e6, x6⟩,
    ⟨e7, x7⟩, tres, ⟨e8, x8⟩, ⟨e9, x9⟩, ⟨e10, x10⟩, ce⟩ := o
  rcases cf with _ | fe
  case some => simp [CollectProfile, runBody, postAsyncResult, firstFault, faultIndex, stepResponses, sessionOps, errOf, expectedTrace]
  rcases e1 with _ | err1
  case some => simp [CollectProfile, runBody, postAsyncResult, firstFault, faultIndex, stepResponses, sessionOps, errOf, expectedTrace]
  rcases x1 with _ | exn1
  case some => simp [CollectProfile, runBody, postAsyncResult, firstFault, faultIndex, stepResponses, sessionOps, errOf, expectedTrace]
  rcases e2 with _ | err2
  case some => simp [CollectProfile, runBody, postAsyncResult, firstFault, faultIndex, stepResponses, sessionOps, errOf, expectedTrace]
  rcases x2 with _ | exn2
  case some => simp [CollectProfile, runBody, postAsyncResult, firstFault, faultIndex, stepResponses, sessionOps, errOf, expectedTrace]
  rcases e3 with _ | err3
  case some => simp [CollectProfile, runBody, postAsyncResult, firstFault, faultIndex, stepResponses, sessionOps, errOf, expectedTrace]
  rcases x3 with _ | exn3
  case some => simp [CollectProfile, runBody, postAsyncResult, firstFault, faultIndex, stepResponses, sessionOps, errOf, expectedTrace]
  rcases e4 with _ | err4
  case some => simp [CollectProfile, runBody, postAsyncResult, firstFault, faultIndex, stepResponses, sessionOps, errOf, expectedTrace]
  rcases x4 with _ | exn4
  case some => simp [CollectProfile, runBody, postAsyncResult, firstFault, faultIndex, stepResponses, sessionOps, errOf, expectedTrace]
  rcases e5 with _ | err5
  case some => simp [CollectProfile, runBody, postAsyncResult, firstFault, faultIndex, stepResponses, sessionOps, errOf, expectedTrace]
  rcases x5 with _ | exn5
  case some => simp [CollectProfile, runBody, postAsyncResult, firstFault, faultIndex, stepResponses, sessionOps, errOf, expectedTrace]
  rcases e6 with _ | err6
  case some => simp [CollectProfile, runBody, postAsyncResult, firstFault, faultIndex, stepResponses, sessionOps, errOf, expectedTrace]
  rcases x6 with _ | exn6
  case some => simp [CollectProfile, runBody, postAsyncResult, firstFault, faultIndex, stepResponses, sessionOps, errOf, expectedTrace]
  rcases e7 with _ | err7
  case some => simp [CollectProfile, runBody, postAsyncResult, firstFault, faultIndex, stepResponses, sessionOps, errOf, expectedTrace]
  rcases x7 with _ | exn7
  case some => simp [CollectProfile, runBody, postAsyncResult, firstFault, faultIndex, stepResponses, sessionOps, errOf, expectedTrace]
  rcases e8 with _ | err8
  case some => simp [CollectProfile, runBody, postAsyncResult, firstFault, faultIndex, stepResponses, sessionOps, errOf, expectedTrace]
  rcases x8 with _ | exn8
  case some => simp [CollectProfile, runBody, postAsyncResult, firstFault, faultIndex, stepResponses, sessionOps, errOf, expectedTrace]
  rcases e9 with _ | err9
  case some => simp [CollectProfile, runBody, postAsyncResult, firstFault, faultIndex, stepResponses, sessionOps, errOf, expectedTrace]
  rcases x9 with _ | exn9
  case some => simp [CollectProfile, runBody, postAsyncResult, firstFault, faultIndex, stepResponses, sessionOps, errOf, expectedTrace]
  rcases e10 with _ | err10
  case some => simp [CollectProfile, runBody, postAsyncResult, firstFault, faultIndex, stepResponses, sessionOps, errOf, expectedTrace]
  rcases x10 with _ | exn10
  case some => simp [CollectProfile, runBody, postAsyncResult, firstFault, faultIndex, stepResponses, sessionOps, errOf, expectedTrace]
  simp [CollectProfile, runBody, postAsyncResult, firstFault, faultIndex, stepResponses, sessionOps, errOf, expectedTrace]

/-! ## Claim theorems -/

/-- C1: for every run of `CollectProfile` — every remote behaviour, hence
every outcome: success, script-thrown exception, compile failure, or
transport/command fault at any step of the protocol sequence — the session's
disconnect operation is invoked exactly once. -/
theorem collectProfile_disconnect_exactly_once (o : Oracle) (source : List Char) :
    ((CollectProfile o source).1).count SessionOp.disconnect = 1 := by
  rw [(collectProfile_characterization o source).1, expectedTrace]
  have hs : sessionOps.count SessionOp.disconnect = 0 := by decide
  rcases h : faultIndex o with _ | i
  · rw [List.count_append, hs]
    decide
  · rw [List.count_append]
    have hred : (match (some i : Option Nat) with
        | some i => List.take (i + 1) sessionOps
        | none => sessionOps) = List.take (i + 1) sessionOps := rfl
    rw [hred]
    have hle : (sessionOps.take (i + 1)).count SessionOp.disconnect
        ≤ sessionOps.count SessionOp.disconnect :=
      (List.take_sublist (i + 1) sessionOps).count_le SessionOp.disconnect
    have h1 : ([SessionOp.disconnect] : List SessionOp).count SessionOp.disconnect = 1 := by
      decide
    omega

/-- C2: a protocol command that reports a remote error, or whose result
carries an exception description, aborts the sequence immediately (the trace
stops at that command) and `CollectProfile` rejects with exactly the first
such fault's reason; and no partial result is returned: a resolved run means
every step was clean and the value is the complete (filtered profile, logs)
pair. -/
theorem collectProfile_first_fault_semantics (o : Oracle) (source : List Char) :
    (∀ r, (CollectProfile o source).2 = Except.error r ↔ firstFault o = some r)
    ∧ (CollectProfile o source).1 = expectedTrace o
    ∧ (∀ p, (CollectProfile o source).2 = Except.ok p →
        firstFault o = none
        ∧ p = (o.takeResult.filter (fun x => x.scriptId == o.compiledScriptId),
               o.consoleEvents)) := by
  obtain ⟨ht, hiff, hok⟩ := collectProfile_characterization o source
  refine ⟨hiff, ht, ?_⟩
  intro p hp
  refine ⟨?_, hok p hp⟩
  rcases hff : firstFault o with _ | r
  · rfl
  · have herr := (hiff r).mpr hff
    rw [hp] at herr
    cases herr

/-- C2 witness: a run whose script throws during `Runtime.runScript` rejects
with exactly that exception description. -/
theorem collectProfile_first_fault_semantics_witness :
    (CollectProfile { runScript := { exceptionDetails := some "boom" } } "x".data).2
      = Except.error (Reason.scriptException "boom") :=
  ((collectProfile_first_fault_semantics { runScript := { exceptionDetails := some "boom" } }
    "x".data).1 (Reason.scriptException "boom")).mpr (by decide)

/-- C3: a resolved run's profile is exactly the filter of the harvested raw
result to the entries whose script identifier equals the one assigned to
this session's compiled script; entries with a differing identifier are
discarded even though present in the raw data. -/
theorem collectProfile_profile_script_filter (o : Oracle) (source : List Char)
    (p : List ProfileEntry × List LogMessage)
    (h : (CollectProfile o source).2 = Except.ok p) :
    p.1 = o.takeResult.filter (fun x => x.scriptId == o.compiledScriptId)
    ∧ (∀ e, e ∈ p.1 ↔ (e ∈ o.takeResult ∧ e.scriptId = o.compiledScriptId)) := by
  have hp := (collectProfile_characterization o source).2.2 p h
  constructor
  · rw [hp]
  · intro e
    rw [hp]
    simp [List.mem_filter]

/-- C3 witness: with a clean run harvesting entries for script identifiers
1 and 2 while the session compiled script 1, only the first entry is kept. -/
theorem collectProfile_profile_script_filter_witness :
    (CollectProfile { compiledScriptId := 1, takeResult := [⟨1, []⟩, ⟨2, []⟩] } "x".data).2
      = Except.ok ([⟨1, []⟩], [])
    ∧ ([⟨1, []⟩] : List ProfileEntry)
        = [(⟨1, []⟩ : ProfileEntry), ⟨2, []⟩].filter (fun x => x.scriptId == 1) :=
  ⟨by rfl,
   (collectProfile_profile_script_filter
     { compiledScriptId := 1, takeResult := [⟨1, []⟩, ⟨2, []⟩] } "x".data
     ([⟨1, []⟩], []) (by rfl)).1⟩

/-- C4: `Escape` performs global substitution of exactly the spec's patterns
in exactly the spec's order: `&`, then space, `<`, `>`, CR+LF, bare LF, and
`"`; in particular `&` is processed first. -/
theorem escape_substitution_order (s : List Char) : Escape s = EscapeSpec s := rfl

/-- C5 counterexample: `Escape` is not injective over safe inputs as claimed.
The strings CR+LF and bare LF contain none of the literal marker HTML, yet
both escape to the same line-break marker. -/
theorem escape_injective_counterexample :
    Escape "\r\n".data = Escape "\n".data
    ∧ "\r\n".data ≠ "\n".data
    ∧ escapeSafe "\r\n".data = true
    ∧ escapeSafe "\n".data = true := by
  refine ⟨?_, by decide, by decide, by decide⟩
  rw [Escape_eq_escOne, Escape_eq_escOne]
  decide

/-- C5 amended: over safe inputs that moreover contain no CR+LF sequence,
`Escape` is injective (equivalently, the reverse substitution recovers the
original string). -/
theorem escape_injective_on_safe_crlf_free (s1 s2 : List Char)
    (h1 : escapeSafe s1 = true) (h2 : escapeSafe s2 = true)
    (h3 : hasCRLF s1 = false) (h4 : hasCRLF s2 = false)
    (h : Escape s1 = Escape s2) : s1 = s2 := by
  rw [Escape_eq_escOne, Escape_eq_escOne, escOne_eq_flatMap s1 h3,
      escOne_eq_flatMap s2 h4] at h
  exact flatMap_blockOf_inj s1 s2 h

/-- C5 amended witness: instantiation at a concrete safe, CR+LF-free string. -/
theorem escape_injective_on_safe_crlf_free_witness :
    escapeSafe "a<b&".data = true
    ∧ hasCRLF "a<b&".data = false
    ∧ "a<b&".data = "a<b&".data :=
  ⟨by decide, by decide,
   escape_injective_on_safe_crlf_free "a<b&".data "a<b&".data
     (by decide) (by decide) (by decide) (by decide) rfl⟩

/-- C6 counterexample: equality of lengths does not imply the sample
sequence is empty — a sample carrying no types adds no markers, so the
claimed equivalence fails on a one-sample profile with an empty type list. -/
theorem markUpCode_length_equality_counterexample :
    (MarkUpCode [⟨1, [⟨0, []⟩]⟩] "a".data).length = (Escape "a".data).length
    ∧ flattenEntries [⟨1, [⟨0, []⟩]⟩] ≠ [] := by
  constructor
  · simp only [MarkUpCode, flattenEntries, sortByOffset, insertByOffset, annotateWalk,
      List.foldl, Escape_eq_escOne]
    decide
  · decide

/-- C6 amended: the annotated text is never shorter than the escaped source,
and when the flattened sample sequence is empty the two lengths are equal
(the converse of the claimed equivalence fails, see the counterexample). -/
theorem markUpCode_length_invariant (profile : List ProfileEntry) (source : List Char) :
    (Escape source).length ≤ (MarkUpCode profile source).length
    ∧ (flattenEntries profile = [] →
        (MarkUpCode profile source).length = (Escape source).length) := by
  constructor
  · rw [Escape_eq_escOne, MarkUpCode]
    have h := annotateWalk_length source (sortByOffset (flattenEntries profile)) 0
      (fun e _ => Nat.zero_le e.offset) (sortByOffset_pairwise (flattenEntries profile))
    rw [jsSubstring_all] at h
    exact h
  · intro hempty
    rw [MarkUpCode, hempty]
    show (annotateWalk source 0 []).length = (Escape source).length
    rw [annotateWalk, jsSubstring_all]

/-- C6 amended witness: a profile whose entries carry no samples flattens to
the empty sequence and yields exactly the escaped source's length. -/
theorem markUpCode_length_invariant_witness :
    flattenEntries [(⟨1, []⟩ : ProfileEntry)] = []
    ∧ (MarkUpCode [⟨1, []⟩] "a b".data).length = (Escape "a b".data).length :=
  ⟨by decide, (markUpCode_length_invariant [⟨1, []⟩] "a b".data).2 (by decide)⟩

/-- C7: after sorting, sample offsets are non-decreasing, and — provided
every sample offset lies within the source's length — the cursor values only
advance and the concatenation of the raw source pieces the walk copies is
exactly the source: each character is copied once, in order, none skipped or
duplicated. -/
theorem markUpCode_sorted_offsets_cursor (profile : List ProfileEntry) (source : List Char) :
    (∀ i j : Fin (sortByOffset (flattenEntries profile)).length, i < j →
        ((sortByOffset (flattenEntries profile)).get i).offset
          ≤ ((sortByOffset (flattenEntries profile)).get j).offset)
    ∧ ((∀ e ∈ flattenEntries profile, e.offset ≤ source.length) →
        List.Chain' (fun a b => a ≤ b)
          (cursorTrace source 0 (sortByOffset (flattenEntries profile)))
        ∧ (copiedChunks source 0 (sortByOffset (flattenEntries profile))).flatten = source) := by
  constructor
  · exact List.pairwise_iff_get.mp (sortByOffset_pairwise (flattenEntries profile))
  · intro hub
    have hub2 : ∀ e ∈ sortByOffset (flattenEntries profile), e.offset ≤ source.length :=
      fun e he => hub e ((mem_sortByOffset e (flattenEntries profile)).mp he)
    constructor
    · exact cursorTrace_chain source (sortByOffset (flattenEntries profile)) 0
        (fun e _ => Nat.zero_le e.offset) (sortByOffset_pairwise (flattenEntries profile))
        hub2 (Nat.zero_le source.length)
    · rw [copiedChunks_flatten source (sortByOffset (flattenEntries profile)) 0
        (fun e _ => Nat.zero_le e.offset) (sortByOffset_pairwise (flattenEntries profile)),
        jsSubstring_all]

/-- C7 witness: instantiation at a two-sample profile over a two-character
source, with offsets inside the source. -/
theorem markUpCode_sorted_offsets_cursor_witness :
    (∀ e ∈ flattenEntries [(⟨1, [⟨1, []⟩, ⟨0, []⟩]⟩ : ProfileEntry)],
      e.offset ≤ "ab".data.length)
    ∧ (copiedChunks "ab".data 0
        (sortByOffset (flattenEntries [(⟨1, [⟨1, []⟩, ⟨0, []⟩]⟩ : ProfileEntry)]))).flatten
        = "ab".data :=
  ⟨by decide,
   ((markUpCode_sorted_offsets_cursor [⟨1, [⟨1, []⟩, ⟨0, []⟩]⟩] "ab".data).2
     (by decide)).2⟩

/-- C8: the sort by offset is stable — samples with equal offsets keep their
relative input order — and in particular two offset-0 samples with different
type names produce both markers, in input order, before any source text. -/
theorem markUpCode_sort_stable (l : List TypeSample) (v : Nat) :
    (sortByOffset l).filter (fun e => e.offset == v) = l.filter (fun e => e.offset == v)
    ∧ MarkUpCode [⟨1, [⟨0, [⟨"A".data⟩]⟩, ⟨0, [⟨"B".data⟩]⟩]⟩] "ab".data
        = PrintType ⟨"A".data⟩ ++ PrintType ⟨"B".data⟩ ++ Escape "ab".data := by
  constructor
  · exact sortByOffset_filter_stable l v
  · simp only [MarkUpCode, flattenEntries, sortByOffset, insertByOffset, annotateWalk,
      List.foldl, PrintType, Escape_eq_escOne]
    decide

/-- C9: when the flattened sample sequence is empty, `MarkUpCode` returns
exactly the escaped source, with no markers. -/
theorem markUpCode_empty_samples (profile : List ProfileEntry) (source : List Char)
    (h : flattenEntries profile = []) : MarkUpCode profile source = Escape source := by
  rw [MarkUpCode, h]
  show annotateWalk source 0 [] = Escape source
  rw [annotateWalk, jsSubstring_all]

/-- C9 witness: a profile with entries but no samples is annotated to the
escaped source itself. -/
theorem markUpCode_empty_samples_witness :
    flattenEntries [(⟨1, []⟩ : ProfileEntry), ⟨2, []⟩] = []
    ∧ MarkUpCode [⟨1, []⟩, ⟨2, []⟩] "x<y".data = Escape "x<y".data :=
  ⟨by decide, markUpCode_empty_samples [⟨1, []⟩, ⟨2, []⟩] "x<y".data (by decide)⟩

/-- C10: the marker emitted for a type is the fixed opening span text
followed by the type's name verbatim — no HTML escaping applied to it —
then the closing tag and one literal space; a name containing
HTML-significant characters therefore appears unescaped in the output. -/
theorem printType_marker_format (t : TypeInfo) :
    PrintType t
      = "<span style=\"background-color: rgb(255, 0, 0); color: white\">".data
          ++ t.name ++ "</span>".data ++ [' ']
    ∧ MarkUpCode [⟨1, [⟨0, [⟨"<X>".data⟩]⟩]⟩] "a".data
        = "<span style=\"background-color: rgb(255, 0, 0); color: white\">".data
            ++ "<X>".data ++ "</span>".data ++ [' '] ++ Escape "a".data := by
  constructor
  · rw [PrintType,
      show "<span style=\"background-color: rgb(255, 0, 0); color: white\"".data
          ++ ">".data
        = "<span style=\"background-color: rgb(255, 0, 0); color: white\">".data by decide]
  · simp only [MarkUpCode, flattenEntries, sortByOffset, insertByOffset, annotateWalk,
      List.foldl, Escape_eq_escOne]
    decide
